import Mathlib

/-!
Verification of the message-bus core of `tormeh/bevy`
(`crates/bevy_ecs/src/message/message_reader.rs` and the queue/cursor pair it
wraps). The wrapper `MessageReader` / `PopulatedMessageReader` is embedded
from the source file; the underlying `Messages` double-buffer queue and the
`MessageCursor` are not part of the provided sources, so they are modelled
from the specification (each such definition says so in its doc comment).
-/

namespace MessageBus

/-- Modelled from the spec: a `MessageInstance` is an immutable
`(id, payload)` pair; the id is a monotonically increasing counter unique
within the message type. -/
structure MessageInstance (α : Type) where
  id : Nat
  payload : α
deriving DecidableEq, Repr

/-- Modelled from the spec: the double-buffered queue for one message type.
`previous` and `current` each hold messages in ascending id order and
`total_sent_count` equals the id that will be assigned to the next message. -/
structure Messages (α : Type) where
  previous : List (MessageInstance α)
  current : List (MessageInstance α)
  total_sent_count : Nat
deriving DecidableEq, Repr

/-- Modelled from the spec: a reader's private cursor, recording the id of the
next unread message. -/
structure MessageCursor where
  next_unread_id : Nat
deriving DecidableEq, Repr

/-- Modelled from the spec: the queue created lazily at registration, with
both generations empty and no message sent yet. -/
def Messages.emptyQueue (α : Type) : Messages α :=
  { previous := [], current := [], total_sent_count := 0 }

/-- Modelled from the spec: `send(payload)` appends
`MessageInstance {id := total_sent_count, payload}` to `current`, increments
`total_sent_count` and returns the assigned id. -/
def Messages.send (q : Messages α) (p : α) : Messages α × Nat :=
  ({ q with
      current := q.current ++ [⟨q.total_sent_count, p⟩],
      total_sent_count := q.total_sent_count + 1 },
   q.total_sent_count)

/-- Sending a whole list of payloads in order within one tick. -/
def Messages.sendAll : Messages α → List α → Messages α
  | q, [] => q
  | q, p :: ps => Messages.sendAll (q.send p).1 ps

/-- Modelled from the spec: `rotate()` moves `current` into `previous`
(replacing whatever was in `previous`) and leaves `current` empty. -/
def Messages.rotate (q : Messages α) : Messages α :=
  { previous := q.current, current := [], total_sent_count := q.total_sent_count }

/-- The messages the queue still retains, oldest generation first. -/
def Messages.retained (q : Messages α) : List (MessageInstance α) :=
  q.previous ++ q.current

/-- Modelled from the spec: the oldest id the queue still retains (used by
overflow detection); when nothing is retained every id below
`total_sent_count` is already gone. -/
def Messages.oldestRetainedId (q : Messages α) : Nat :=
  match q.retained.head? with
  | some m => m.id
  | none => q.total_sent_count

/-- Queue well-formedness, the invariants stated in the spec's data model:
retained messages are in strictly ascending id order (previous before
current) and all ids are below `total_sent_count`. -/
def Messages.WF (q : Messages α) : Prop :=
  q.retained.Pairwise (fun a b => a.id < b.id) ∧
    ∀ m ∈ q.retained, m.id < q.total_sent_count

instance (q : Messages α) : Decidable q.WF := by
  unfold Messages.WF; infer_instance

/-- Modelled from the spec: a freshly attached reader's cursor is initialized
to the queue's `total_sent_count` at the moment of attachment. -/
def MessageCursor.attach (q : Messages α) : MessageCursor :=
  ⟨q.total_sent_count⟩

/-- Modelled from the spec: overflow handling clamps `next_unread_id` up to
the oldest retained id before reading. -/
def MessageCursor.clamp (c : MessageCursor) (q : Messages α) : MessageCursor :=
  ⟨max c.next_unread_id q.oldestRetainedId⟩

/-- Modelled from the spec: the unread messages of a cursor, the retained
messages (previous then current) with id at least `next_unread_id`. -/
def MessageCursor.unread (c : MessageCursor) (q : Messages α) :
    List (MessageInstance α) :=
  q.retained.filter (fun m => c.next_unread_id ≤ m.id)

/-- Modelled from the spec: after yielding, the cursor is set to one past the
highest id yielded; when nothing was yielded it stays where it is. -/
def MessageCursor.advance (c : MessageCursor) (msgs : List (MessageInstance α)) :
    MessageCursor :=
  match msgs.getLast? with
  | some m => ⟨m.id + 1⟩
  | none => c

/-- Modelled from the spec: `read_with_id` — clamp the cursor forward on
overflow, yield every retained message with id at least the (clamped)
`next_unread_id` from `previous` first then `current`, both in ascending id
order, and eagerly set the cursor one past the highest id yielded. -/
def MessageCursor.read_with_id (c : MessageCursor) (q : Messages α) :
    List (MessageInstance α) × MessageCursor :=
  let c' := c.clamp q
  let msgs := c'.unread q
  (msgs, c'.advance msgs)

/-- Modelled from the spec: `read` is `read_with_id` with the ids stripped,
yielding payloads only. -/
def MessageCursor.read (c : MessageCursor) (q : Messages α) :
    List α × MessageCursor :=
  let r := c.read_with_id q
  (r.1.map MessageInstance.payload, r.2)

/-- Modelled from the spec: the number of unread messages, computed without
mutating the cursor. -/
def MessageCursor.len (c : MessageCursor) (q : Messages α) : Nat :=
  (c.unread q).length

/-- Modelled from the spec: `is_empty` is `len == 0`, without mutation. -/
def MessageCursor.is_empty (c : MessageCursor) (q : Messages α) : Bool :=
  c.len q == 0

/-- Modelled from the spec: `clear` advances `next_unread_id` to
`total_sent_count` without yielding anything. -/
def MessageCursor.clear (_c : MessageCursor) (q : Messages α) : MessageCursor :=
  ⟨q.total_sent_count⟩

/-- Modelled from the spec: the overflow diagnostic fires exactly when the
cursor is behind the oldest retained id; it is fire-and-forget and feeds the
external logging collaborator only. -/
def overflowDiagnostic (c : MessageCursor) (q : Messages α) : Bool :=
  decide (c.next_unread_id < q.oldestRetainedId)

/-- Splitting a list into contiguous chunks of `b + 1` elements (the last
chunk may be shorter). The batch threshold is a tuning parameter in the
spec; `b + 1` keeps every chunk nonempty. -/
def chunksOf (b : Nat) (l : List β) : List (List β) :=
  match l with
  | [] => []
  | x :: xs => (x :: xs).take (b + 1) :: chunksOf b ((x :: xs).drop (b + 1))
termination_by l.length
decreasing_by
  simp only [List.length_drop, List.length_cons]
  omega

/-- Modelled from the spec: `par_read` computes the same unread range as
`read`, advances the cursor for the whole range up front, and partitions the
range into contiguous id-ordered chunks sized by the batch threshold. -/
def MessageCursor.par_read (b : Nat) (c : MessageCursor) (q : Messages α) :
    List (List (MessageInstance α)) × MessageCursor :=
  let r := c.read_with_id q
  (chunksOf b r.1, r.2)

/-- The reader state: a private cursor together with shared access to the
queue, as bundled by `MessageReader` in the source
(`message_reader.rs` lines 18-23). -/
structure MessageReader (α : Type) where
  reader : MessageCursor
  messages : Messages α
deriving DecidableEq, Repr

/-- Source `MessageReader::read` (line 29): delegates to the cursor. -/
def MessageReader.read (r : MessageReader α) : List α × MessageReader α :=
  let x := r.reader.read r.messages
  (x.1, { r with reader := x.2 })

/-- Source `MessageReader::read_with_id` (line 34): delegates to the cursor. -/
def MessageReader.read_with_id (r : MessageReader α) :
    List (MessageInstance α) × MessageReader α :=
  let x := r.reader.read_with_id r.messages
  (x.1, { r with reader := x.2 })

/-- Source `MessageReader::par_read` (line 74): delegates to the cursor. -/
def MessageReader.par_read (b : Nat) (r : MessageReader α) :
    List (List (MessageInstance α)) × MessageReader α :=
  let x := MessageCursor.par_read b r.reader r.messages
  (x.1, { r with reader := x.2 })

/-- Source `MessageReader::len` (line 79): delegates to the cursor, no
mutation (`&self`). -/
def MessageReader.len (r : MessageReader α) : Nat :=
  r.reader.len r.messages

/-- Source `MessageReader::is_empty` (line 104): delegates to the cursor, no
mutation (`&self`). -/
def MessageReader.is_empty (r : MessageReader α) : Bool :=
  r.reader.is_empty r.messages

/-- Source `MessageReader::clear` (line 114): delegates to the cursor. -/
def MessageReader.clear (r : MessageReader α) : MessageReader α :=
  { r with reader := r.reader.clear r.messages }

/-- Outcome of a system-param validation probe, as seen by the scheduler:
`ok` runs the system, `skipped` skips it this cycle, `invalid` is a
configuration error. -/
inductive ValidationOutcome
  | ok
  | skipped (msg : String)
  | invalid (msg : String)
deriving DecidableEq, Repr

/-- Source `MessageReader`'s derived validation (line 21,
`validation_message = "Message not initialized"`): the `Res<Messages<M>>`
param is invalid when the message type was never registered, i.e. the world
holds no queue for it. The derive machinery itself is outside the provided
sources and is modelled from the spec's configuration-error taxonomy. -/
def MessageReader.validate_param (w : Option (Messages α)) : ValidationOutcome :=
  match w with
  | none => .invalid "Message not initialized"
  | some _ => .ok

/-- Source `PopulatedMessageReader` (line 126): a newtype wrapper around
`MessageReader`. -/
structure PopulatedMessageReader (α : Type) where
  inner : MessageReader α
deriving DecidableEq, Repr

/-- Source `Deref::deref` (line 131): exposes the wrapped reader. -/
def PopulatedMessageReader.deref (p : PopulatedMessageReader α) :
    MessageReader α :=
  p.inner

/-- Via `Deref`/`DerefMut` (lines 128-140) a method call on
`PopulatedMessageReader` resolves to the same method on the wrapped
`MessageReader`; the wrapper adds no operation of its own. -/
def PopulatedMessageReader.read (p : PopulatedMessageReader α) :
    List α × PopulatedMessageReader α :=
  let x := p.inner.read
  (x.1, ⟨x.2⟩)

/-- `read_with_id` through `DerefMut`. -/
def PopulatedMessageReader.read_with_id (p : PopulatedMessageReader α) :
    List (MessageInstance α) × PopulatedMessageReader α :=
  let x := p.inner.read_with_id
  (x.1, ⟨x.2⟩)

/-- `par_read` through `DerefMut`. -/
def PopulatedMessageReader.par_read (b : Nat) (p : PopulatedMessageReader α) :
    List (List (MessageInstance α)) × PopulatedMessageReader α :=
  let x := p.inner.par_read b
  (x.1, ⟨x.2⟩)

/-- `len` through `Deref`. -/
def PopulatedMessageReader.len (p : PopulatedMessageReader α) : Nat :=
  p.inner.len

/-- `is_empty` through `Deref`. -/
def PopulatedMessageReader.is_empty (p : PopulatedMessageReader α) : Bool :=
  p.inner.is_empty

/-- `clear` through `DerefMut`. -/
def PopulatedMessageReader.clear (p : PopulatedMessageReader α) :
    PopulatedMessageReader α :=
  ⟨p.inner.clear⟩

/-- Source `PopulatedMessageReader::get_param` (lines 160-175): wraps the
value `MessageReader::get_param` produces, changing nothing. Obtaining the
reader from the world is modelled as pairing the stored cursor with the
registered queue. -/
def PopulatedMessageReader.get_param (c : MessageCursor) (q : Messages α) :
    PopulatedMessageReader α :=
  ⟨{ reader := c, messages := q }⟩

/-- Source `PopulatedMessageReader::validate_param` (lines 177-195): first
propagate `MessageReader::validate_param` (the registration check), then
probe `is_empty` on a reader built over the same cursor state and signal the
skip outcome "message queue is empty" when it holds; the cursor `state` is
handed back untouched in every branch. -/
def PopulatedMessageReader.validate_param (c : MessageCursor)
    (w : Option (Messages α)) : ValidationOutcome × MessageCursor :=
  match MessageReader.validate_param (α := α) w, w with
  | .invalid msg, _ => (.invalid msg, c)
  | _, none => (.invalid "Message not initialized", c)
  | _, some q =>
    if (PopulatedMessageReader.get_param c q).is_empty then
      (.skipped "message queue is empty", c)
    else
      (.ok, c)

/-- Modelled from the spec: registration must precede construction of any
reader; constructing a reader for an unregistered type is a configuration
error surfaced immediately to the caller at system-construction time, while
a registered type yields a reader whose cursor attaches at the queue's
`total_sent_count`. -/
def constructReader (w : Option (Messages α)) : Except String (MessageReader α) :=
  match w with
  | none => .error "Message not initialized"
  | some q => .ok { reader := MessageCursor.attach q, messages := q }

/-- The `len` probe as a state transformer: a `&self` method receives the
reader and hands it back; `len` computed its answer without touching the
cursor (source line 79). -/
def MessageReader.lenProbe (r : MessageReader α) : Nat × MessageReader α :=
  (r.len, r)

/-- The `is_empty` probe as a state transformer (source line 104). -/
def MessageReader.isEmptyProbe (r : MessageReader α) : Bool × MessageReader α :=
  (r.is_empty, r)

/-! ### Helper lemmas -/

theorem Messages.oldestRetainedId_le (q : Messages α) (hWF : q.WF)
    {m : MessageInstance α} (hm : m ∈ q.retained) : q.oldestRetainedId ≤ m.id := by
  unfold Messages.oldestRetainedId
  rcases hr : q.retained with _ | ⟨a, l⟩
  · rw [hr] at hm; cases hm
  · have hs := hWF.1
    rw [hr] at hs hm
    simp only [List.head?_cons]
    rcases List.mem_cons.mp hm with rfl | h
    · exact le_refl _
    · exact le_of_lt ((List.pairwise_cons.mp hs).1 m h)

theorem Messages.oldestRetainedId_le_total (q : Messages α) (hWF : q.WF) :
    q.oldestRetainedId ≤ q.total_sent_count := by
  unfold Messages.oldestRetainedId
  rcases hr : q.retained with _ | ⟨a, l⟩
  · exact le_refl _
  · simp only [List.head?_cons]
    exact le_of_lt (hWF.2 a (by rw [hr]; exact List.mem_cons_self a l))

theorem MessageCursor.mem_unread_iff (c : MessageCursor) (q : Messages α)
    (x : MessageInstance α) :
    x ∈ c.unread q ↔ x ∈ q.retained ∧ c.next_unread_id ≤ x.id := by
  unfold MessageCursor.unread
  simp [List.mem_filter]

theorem MessageCursor.unread_clamp (c : MessageCursor) (q : Messages α)
    (hWF : q.WF) : (c.clamp q).unread q = c.unread q := by
  unfold MessageCursor.unread MessageCursor.clamp
  apply List.filter_congr
  intro m hm
  simp only [decide_eq_decide, Nat.max_le]
  exact ⟨fun h => h.1, fun h => ⟨h, q.oldestRetainedId_le hWF hm⟩⟩

theorem MessageCursor.clamp_clamp (c : MessageCursor) (q : Messages α) :
    (c.clamp q).clamp q = c.clamp q := by
  unfold MessageCursor.clamp
  simp [Nat.max_assoc]

theorem MessageCursor.unread_pairwise (c : MessageCursor) (q : Messages α)
    (hWF : q.WF) : (c.unread q).Pairwise (fun a b => a.id < b.id) :=
  hWF.1.sublist (List.filter_sublist q.retained)

theorem id_le_getLast_of_pairwise {l : List (MessageInstance α)}
    (hl : l.Pairwise (fun a b => a.id < b.id)) (h : l ≠ []) :
    ∀ x ∈ l, x.id ≤ (l.getLast h).id := by
  induction l with
  | nil => exact absurd rfl h
  | cons a t ih =>
    intro x hx
    rcases List.mem_cons.mp hx with rfl | hx'
    · by_cases ht : t = []
      · subst ht; simp
      · rw [List.getLast_cons ht]
        exact le_of_lt ((List.pairwise_cons.mp hl).1 _ (List.getLast_mem ht))
    · have ht : t ≠ [] := List.ne_nil_of_mem hx'
      rw [List.getLast_cons ht]
      exact ih (List.pairwise_cons.mp hl).2 ht x hx'

theorem getLast_none_eq_nil {l : List β} (h : l.getLast? = none) : l = [] := by
  cases l with
  | nil => rfl
  | cons a t =>
    rw [List.getLast?_eq_getLast_of_ne_nil (List.cons_ne_nil a t)] at h
    cases h

theorem mem_of_getLast_some {l : List β} {x : β} (h : l.getLast? = some x) :
    x ∈ l := by
  have hx : x ∈ l.getLast? := Option.mem_def.mpr h
  obtain ⟨hne, rfl⟩ := List.mem_getLast?_eq_getLast hx
  exact List.getLast_mem hne

theorem MessageCursor.advance_of_getLast_none {c : MessageCursor}
    {msgs : List (MessageInstance α)} (h : msgs.getLast? = none) :
    c.advance msgs = c := by
  unfold MessageCursor.advance
  rw [h]

theorem MessageCursor.advance_of_getLast_some {c : MessageCursor}
    {msgs : List (MessageInstance α)} {x : MessageInstance α}
    (h : msgs.getLast? = some x) : c.advance msgs = ⟨x.id + 1⟩ := by
  unfold MessageCursor.advance
  rw [h]

theorem MessageCursor.oldest_le_advance (c : MessageCursor) (q : Messages α) :
    q.oldestRetainedId ≤
      ((c.clamp q).advance ((c.clamp q).unread q)).next_unread_id := by
  rcases hg : ((c.clamp q).unread q).getLast? with _ | m
  · rw [MessageCursor.advance_of_getLast_none hg]
    exact Nat.le_max_right _ _
  · rw [MessageCursor.advance_of_getLast_some hg]
    have hm : m ∈ (c.clamp q).unread q := mem_of_getLast_some hg
    have h2 := ((c.clamp q).mem_unread_iff q m).mp hm
    calc q.oldestRetainedId ≤ (c.clamp q).next_unread_id := Nat.le_max_right _ _
      _ ≤ m.id := h2.2
      _ ≤ m.id + 1 := Nat.le_succ _

theorem MessageCursor.unread_advance_nil (c : MessageCursor) (q : Messages α)
    (hWF : q.WF) :
    ((c.clamp q).advance ((c.clamp q).unread q)).unread q = [] := by
  set c' := c.clamp q with hc'
  apply List.filter_eq_nil_iff.mpr
  intro m hm
  simp only [decide_eq_true_eq, Nat.not_le]
  rcases hg : (c'.unread q).getLast? with _ | x
  · -- nothing was yielded: every retained id is below the clamped cursor
    rw [MessageCursor.advance_of_getLast_none hg]
    have hnil : c'.unread q = [] := getLast_none_eq_nil hg
    have := List.filter_eq_nil_iff.mp hnil m hm
    simpa [Nat.not_le] using this
  · -- something was yielded: the last yielded id bounds every retained id
    rw [MessageCursor.advance_of_getLast_some hg]
    have hne : c'.unread q ≠ [] := by
      intro hnil; rw [hnil] at hg; cases hg
    have hx : x = (c'.unread q).getLast hne := by
      have h2 := List.getLast?_eq_getLast_of_ne_nil hne
      rw [hg] at h2
      exact Option.some_injective _ h2
    by_cases hc : c'.next_unread_id ≤ m.id
    · have hmem : m ∈ c'.unread q := (c'.mem_unread_iff q m).mpr ⟨hm, hc⟩
      have h3 := id_le_getLast_of_pairwise (c'.unread_pairwise q hWF) hne m hmem
      rw [← hx] at h3
      simp only [MessageCursor.next_unread_id]
      omega
    · have hxm : x ∈ c'.unread q := mem_of_getLast_some hg
      have hcx : c'.next_unread_id ≤ x.id := ((c'.mem_unread_iff q x).mp hxm).2
      simp only [MessageCursor.next_unread_id]
      omega

theorem MessageCursor.read_with_id_fst (c : MessageCursor) (q : Messages α) :
    (c.read_with_id q).1 = (c.clamp q).unread q := rfl

theorem MessageCursor.read_with_id_snd (c : MessageCursor) (q : Messages α) :
    (c.read_with_id q).2 = (c.clamp q).advance ((c.clamp q).unread q) := rfl

theorem MessageCursor.clamp_advance (c : MessageCursor) (q : Messages α) :
    ((c.clamp q).advance ((c.clamp q).unread q)).clamp q =
      (c.clamp q).advance ((c.clamp q).unread q) := by
  have h := c.oldest_le_advance q
  unfold MessageCursor.clamp
  have := Nat.max_eq_left h
  exact congrArg MessageCursor.mk this

theorem MessageCursor.read_with_id_again (c : MessageCursor) (q : Messages α)
    (hWF : q.WF) :
    ((c.read_with_id q).2.read_with_id q).1 = [] ∧
      ((c.read_with_id q).2.read_with_id q).2 = (c.read_with_id q).2 := by
  rw [MessageCursor.read_with_id_snd]
  set c'' := (c.clamp q).advance ((c.clamp q).unread q) with hc''
  have hclamp : c''.clamp q = c'' := c.clamp_advance q
  have hnil : c''.unread q = [] := by
    rw [hc'']; exact c.unread_advance_nil q hWF
  constructor
  · rw [MessageCursor.read_with_id_fst, hclamp, hnil]
  · rw [MessageCursor.read_with_id_snd, hclamp, hnil]
    unfold MessageCursor.advance
    simp

theorem chunksOf_flatten (b : Nat) (l : List β) :
    (chunksOf b l).flatten = l := by
  induction l using chunksOf.induct b with
  | case1 => rw [chunksOf]; rfl
  | case2 x xs ih =>
    rw [chunksOf]
    simp only [List.flatten_cons, ih, List.take_append_drop]

theorem mem_chunksOf_sublist (b : Nat) (l : List β) :
    ∀ ch ∈ chunksOf b l, ch.Sublist l := by
  induction l using chunksOf.induct b with
  | case1 => intro ch h; rw [chunksOf] at h; cases h
  | case2 x xs ih =>
    intro ch h
    rw [chunksOf] at h
    rcases List.mem_cons.mp h with rfl | h'
    · exact List.take_sublist _ _
    · exact (ih ch h').trans (List.drop_sublist _ _)

theorem Messages.sendAll_previous (q : Messages α) (ps : List α) :
    (q.sendAll ps).previous = q.previous := by
  induction ps generalizing q with
  | nil => rfl
  | cons p ps ih =>
    show ((q.send p).1.sendAll ps).previous = q.previous
    rw [ih]
    rfl

theorem Messages.le_sendAll_total (q : Messages α) (ps : List α) :
    q.total_sent_count ≤ (q.sendAll ps).total_sent_count := by
  induction ps generalizing q with
  | nil => exact le_refl _
  | cons p ps ih =>
    calc q.total_sent_count ≤ (q.send p).1.total_sent_count := Nat.le_succ _
      _ ≤ _ := ih _

theorem Messages.mem_sendAll_current (q : Messages α) (ps : List α)
    {m : MessageInstance α} (hm : m ∈ (q.sendAll ps).current) :
    m ∈ q.current ∨ (q.total_sent_count ≤ m.id ∧
      m.id < (q.sendAll ps).total_sent_count) := by
  induction ps generalizing q with
  | nil => exact Or.inl hm
  | cons p ps ih =>
    have hm' : m ∈ ((q.send p).1.sendAll ps).current := hm
    rcases ih ((q.send p).1) hm' with h | h
    · rcases List.mem_append.mp h with h1 | h1
      · exact Or.inl h1
      · have h2 : m = ⟨q.total_sent_count, p⟩ := List.mem_singleton.mp h1
        subst h2
        right
        exact ⟨le_refl _,
          lt_of_lt_of_le (Nat.lt_succ_self _) ((q.send p).1.le_sendAll_total ps)⟩
    · right
      exact ⟨le_trans (Nat.le_succ _) h.1, h.2⟩

theorem Messages.sendAll_current_lt_total (q : Messages α) (ps : List α)
    (hWF : q.WF) {m : MessageInstance α} (hm : m ∈ (q.sendAll ps).current) :
    m.id < (q.sendAll ps).total_sent_count := by
  rcases q.mem_sendAll_current ps hm with h | h
  · exact lt_of_lt_of_le (hWF.2 m (List.mem_append.mpr (Or.inr h)))
      (q.le_sendAll_total ps)
  · exact h.2

theorem Messages.retained_send (q : Messages α) (p : α) :
    (q.send p).1.retained = q.retained ++ [⟨q.total_sent_count, p⟩] := by
  unfold Messages.retained Messages.send
  simp

theorem Messages.WF_send (q : Messages α) (hWF : q.WF) (p : α) :
    (q.send p).1.WF := by
  constructor
  · rw [q.retained_send p]
    apply List.pairwise_append.mpr
    refine ⟨hWF.1, List.pairwise_singleton _ _, ?_⟩
    intro a ha b hb
    have hb' : b = ⟨q.total_sent_count, p⟩ := List.mem_singleton.mp hb
    subst hb'
    exact hWF.2 a ha
  · intro m hm
    rw [q.retained_send p] at hm
    rcases List.mem_append.mp hm with h | h
    · exact Nat.lt_succ_of_lt (hWF.2 m h)
    · have h2 : m = ⟨q.total_sent_count, p⟩ := List.mem_singleton.mp h
      subst h2
      exact Nat.lt_succ_self _

/-! ### Claim theorems -/

/-- **C1**: `read` yields exactly the payloads of messages with id at least
`next_unread_id`, taken from the previous generation first in ascending id
order and then the current generation in ascending id order, and sets
`next_unread_id` to one past the highest id yielded eagerly at call time; a
second read on the same reader with no intervening sends yields the empty
sequence. -/
theorem read_yields_unread_in_order_and_advances (c : MessageCursor)
    (q : Messages α) (hWF : q.WF) :
    let r := c.read_with_id q
    (c.read q).1 = r.1.map MessageInstance.payload ∧
    (c.read q).2 = r.2 ∧
    r.1 = q.previous.filter (fun m => c.next_unread_id ≤ m.id) ++
      q.current.filter (fun m => c.next_unread_id ≤ m.id) ∧
    r.1.Pairwise (fun a b => a.id < b.id) ∧
    (∀ h : r.1 ≠ [], r.2.next_unread_id = (r.1.getLast h).id + 1 ∧
      ∀ x ∈ r.1, x.id ≤ (r.1.getLast h).id) ∧
    (r.2.read_with_id q).1 = [] ∧
    (r.2.read_with_id q).2 = r.2 := by
  intro r
  refine ⟨rfl, rfl, ?_, ?_, ?_,
    (c.read_with_id_again q hWF).1, (c.read_with_id_again q hWF).2⟩
  · show (c.clamp q).unread q = _
    rw [c.unread_clamp q hWF]
    unfold MessageCursor.unread Messages.retained
    exact List.filter_append _ _
  · exact (c.clamp q).unread_pairwise q hWF
  · intro h
    have hg : ((c.clamp q).unread q).getLast? =
        some (((c.clamp q).unread q).getLast h) :=
      List.getLast?_eq_getLast_of_ne_nil h
    constructor
    · show ((c.clamp q).advance ((c.clamp q).unread q)).next_unread_id = _
      rw [MessageCursor.advance_of_getLast_some hg]
      rfl
    · exact id_le_getLast_of_pairwise ((c.clamp q).unread_pairwise q hWF) h

/-- **C2**: the `PopulatedMessageReader` validation probe evaluates
`is_empty` without mutating the cursor: when the reader has no unread
messages it signals the skip outcome, otherwise it lets the unit of work
run; in both cases `next_unread_id` is unchanged, so a real `read` performed
afterwards sees exactly the messages it would have seen before the probe. -/
theorem validate_probe_preserves_cursor (c : MessageCursor) (q : Messages α) :
    let v := PopulatedMessageReader.validate_param c (some q)
    v.2 = c ∧
    (v.1 = .skipped "message queue is empty" ↔ c.is_empty q = true) ∧
    (v.1 = .ok ↔ c.is_empty q = false) ∧
    MessageCursor.read v.2 q = MessageCursor.read c q ∧
    MessageCursor.len v.2 q = MessageCursor.len c q := by
  intro v
  have hv : v = if c.is_empty q
      then (.skipped "message queue is empty", c) else (.ok, c) := by
    show PopulatedMessageReader.validate_param c (some q) = _
    unfold PopulatedMessageReader.validate_param MessageReader.validate_param
    rfl
  by_cases h : c.is_empty q
  · rw [hv]
    simp [h]
  · rw [hv]
    simp [h]

/-- **C8**: `is_empty` returns `true` exactly when `len` returns `0`, and
calling `is_empty` or `len` any number of times without an intervening
`read`, `read_with_id`, `par_read` or `clear` never changes their result and
never mutates the cursor. -/
theorem is_empty_len_idempotent (r : MessageReader α) (n m : Nat) :
    (r.is_empty = true ↔ r.len = 0) ∧
    (fun s => (MessageReader.lenProbe s).2)^[n]
      ((fun s => (MessageReader.isEmptyProbe s).2)^[m] r) = r ∧
    (MessageReader.lenProbe
      ((fun s => (MessageReader.lenProbe s).2)^[n] r)).1 = r.len ∧
    (MessageReader.isEmptyProbe
      ((fun s => (MessageReader.isEmptyProbe s).2)^[m] r)).1 = r.is_empty := by
  have hlen : (fun s => (MessageReader.lenProbe s).2)^[n] r = r :=
    Function.iterate_fixed rfl n
  have hemp : (fun s => (MessageReader.isEmptyProbe s).2)^[m] r = r :=
    Function.iterate_fixed rfl m
  refine ⟨?_, by rw [hemp, hlen], by rw [hlen]; rfl, by rw [hemp]; rfl⟩
  unfold MessageReader.is_empty MessageReader.len
  unfold MessageCursor.is_empty
  simp

/-- **C9**: reading or writing a never-registered message type is a
configuration error surfaced to the caller/scheduler at construction, not as
a steady-state outcome; once registration has succeeded, validation only
produces the run or skip outcomes and no reader operation fails. -/
theorem unregistered_is_config_error (c : MessageCursor) (q : Messages α) :
    constructReader (α := α) none = .error "Message not initialized" ∧
    MessageReader.validate_param (α := α) none =
      .invalid "Message not initialized" ∧
    constructReader (some q) =
      .ok { reader := MessageCursor.attach q, messages := q } ∧
    MessageReader.validate_param (some q) = .ok ∧
    (PopulatedMessageReader.validate_param c (some q)).1 =
      (if c.is_empty q then .skipped "message queue is empty" else .ok) := by
  refine ⟨rfl, rfl, rfl, rfl, ?_⟩
  show (if (PopulatedMessageReader.get_param c q).is_empty
      then ((.skipped "message queue is empty" : ValidationOutcome), c)
      else ((.ok : ValidationOutcome), c)).1 = _
  by_cases h : c.is_empty q
  · simp [PopulatedMessageReader.is_empty, MessageReader.is_empty,
      PopulatedMessageReader.get_param, h]
  · simp [PopulatedMessageReader.is_empty, MessageReader.is_empty,
      PopulatedMessageReader.get_param, h]

/-- **C10**: every operation on `PopulatedMessageReader` behaves identically
to the same operation on the wrapped `MessageReader` over the same
cursor/queue state (the wrapper delegates through `Deref`/`DerefMut` and
`get_param` wraps the inner value unchanged); the only behavioral difference
is the emptiness-based validation skip. -/
theorem populated_reader_delegates (p : PopulatedMessageReader α) (b : Nat)
    (c : MessageCursor) (q : Messages α) :
    p.deref = p.inner ∧
    p.read.1 = p.inner.read.1 ∧
    p.read.2.inner = p.inner.read.2 ∧
    p.read_with_id.1 = p.inner.read_with_id.1 ∧
    p.read_with_id.2.inner = p.inner.read_with_id.2 ∧
    (p.par_read b).1 = (p.inner.par_read b).1 ∧
    (p.par_read b).2.inner = (p.inner.par_read b).2 ∧
    p.len = p.inner.len ∧
    p.is_empty = p.inner.is_empty ∧
    p.clear.inner = p.inner.clear ∧
    (PopulatedMessageReader.get_param c q).inner =
      { reader := c, messages := q } ∧
    (PopulatedMessageReader.validate_param c (some q)).2 = c ∧
    (PopulatedMessageReader.validate_param c (some q)).1 =
      (if c.is_empty q then .skipped "message queue is empty"
       else MessageReader.validate_param (some q)) ∧
    (PopulatedMessageReader.validate_param c (none : Option (Messages α))).1 =
      MessageReader.validate_param (α := α) none := by
  refine ⟨rfl, rfl, rfl, rfl, rfl, rfl, rfl, rfl, rfl, rfl, rfl, ?_, ?_, rfl⟩
  · show ((if (PopulatedMessageReader.get_param c q).is_empty
        then ((.skipped "message queue is empty" : ValidationOutcome), c)
        else ((.ok : ValidationOutcome), c)) :
        ValidationOutcome × MessageCursor).2 = c
    by_cases h : c.is_empty q
    · simp [PopulatedMessageReader.is_empty, MessageReader.is_empty,
        PopulatedMessageReader.get_param, h]
    · simp [PopulatedMessageReader.is_empty, MessageReader.is_empty,
        PopulatedMessageReader.get_param, h]
  · show ((if (PopulatedMessageReader.get_param c q).is_empty
        then ((.skipped "message queue is empty" : ValidationOutcome), c)
        else ((.ok : ValidationOutcome), c)) :
        ValidationOutcome × MessageCursor).1 = _
    by_cases h : c.is_empty q
    · simp [PopulatedMessageReader.is_empty, MessageReader.is_empty,
        PopulatedMessageReader.get_param, h]
    · simp [PopulatedMessageReader.is_empty, MessageReader.is_empty,
        PopulatedMessageReader.get_param, h, MessageReader.validate_param]

/-- **C3**: the concatenation of the chunks handed out by `par_read` equals
exactly the sequence a sequential `read` at the same state would have
returned (so the multiset union of chunk ids is that of the sequential read,
with no id duplicated and none omitted); within each chunk ids are
ascending; and the cursor is advanced for the whole unread range up front,
to the same position the sequential read would have produced, independently
of the batch size. -/
theorem par_read_matches_sequential (b : Nat) (c : MessageCursor)
    (q : Messages α) (hWF : q.WF) :
    let pr := MessageCursor.par_read b c q
    let sq := c.read_with_id q
    pr.1.flatten = sq.1 ∧
    (∀ ch ∈ pr.1, ch.Pairwise (fun x y => x.id < y.id)) ∧
    (sq.1.map MessageInstance.id).Nodup ∧
    pr.2 = sq.2 := by
  intro pr sq
  refine ⟨chunksOf_flatten b _, ?_, ?_, rfl⟩
  · intro ch hch
    have hsub : ch.Sublist sq.1 := mem_chunksOf_sublist b _ ch hch
    exact ((c.clamp q).unread_pairwise q hWF).sublist hsub
  · have hp : (sq.1.map MessageInstance.id).Pairwise (· < ·) :=
      List.pairwise_map.mpr ((c.clamp q).unread_pairwise q hWF)
    exact hp.imp Nat.ne_of_lt

/-- **C4**: a message resident in `current` after tick N's sends that is not
read before `rotate` runs at the end of tick N and again at the end of tick
N+1 is unreachable afterward: its id no longer occurs in the queue, and any
reader's next `read` (a total operation, so no error) simply does not
include it. -/
theorem rotation_drop_law (q : Messages α) (ps₁ ps₂ : List α) (hWF : q.WF)
    (m : MessageInstance α) (hm : m ∈ (q.sendAll ps₁).current) :
    let q2 := ((q.sendAll ps₁).rotate.sendAll ps₂).rotate
    m.id ∉ q2.retained.map MessageInstance.id ∧
    ∀ c : MessageCursor, ∀ x ∈ (c.read_with_id q2).1, x.id ≠ m.id := by
  intro q2
  have hmlt : m.id < (q.sendAll ps₁).total_sent_count :=
    q.sendAll_current_lt_total ps₁ hWF hm
  have hkey : ∀ x ∈ q2.retained, (q.sendAll ps₁).total_sent_count ≤ x.id := by
    intro x hx
    have hx' : x ∈ ((q.sendAll ps₁).rotate.sendAll ps₂).current := by
      have h0 : q2.retained =
          ((q.sendAll ps₁).rotate.sendAll ps₂).current ++ [] := rfl
      rwa [h0, List.append_nil] at hx
    rcases (q.sendAll ps₁).rotate.mem_sendAll_current ps₂ hx' with h | h
    · simp [Messages.rotate] at h
    · exact h.1
  constructor
  · intro hmem
    rcases List.mem_map.mp hmem with ⟨x, hx, hxid⟩
    have := hkey x hx
    omega
  · intro c x hx
    have hxr : x ∈ q2.retained := (((c.clamp q2).mem_unread_iff q2 x).mp hx).1
    have := hkey x hxr
    omega

/-- **C5**: when the cursor has fallen behind the oldest retained id, `read`
clamps `next_unread_id` up to the oldest retained id before yielding
anything (reading from the clamped cursor gives the identical result), never
yields a message whose id is below the oldest retained id, and — being a
total function — never errors or panics; overflow is reported only through
the separate fire-and-forget diagnostic, which fires exactly when the cursor
is behind. -/
theorem overflow_clamps_forward (c : MessageCursor) (q : Messages α)
    (hWF : q.WF) :
    c.read_with_id q = MessageCursor.read_with_id (c.clamp q) q ∧
    (c.clamp q).next_unread_id = max c.next_unread_id q.oldestRetainedId ∧
    q.oldestRetainedId ≤ (c.clamp q).next_unread_id ∧
    (∀ x ∈ (c.read_with_id q).1, q.oldestRetainedId ≤ x.id) ∧
    (overflowDiagnostic c q = true ↔
      c.next_unread_id < q.oldestRetainedId) := by
  refine ⟨?_, rfl, Nat.le_max_right _ _, ?_, ?_⟩
  · have h := c.clamp_clamp q
    unfold MessageCursor.read_with_id
    rw [h]
  · intro x hx
    have hxr := ((c.clamp q).mem_unread_iff q x).mp hx
    exact q.oldestRetainedId_le hWF hxr.1
  · unfold overflowDiagnostic
    simp

/-- **C6**: a freshly attached reader's cursor is initialized to the queue's
`total_sent_count`, so its first `read` yields the empty sequence and leaves
the cursor at `total_sent_count`, even when messages sent before the
attachment are still resident in the queue. -/
theorem fresh_reader_reads_nothing (q : Messages α) (hWF : q.WF) :
    MessageCursor.attach q = ⟨q.total_sent_count⟩ ∧
    (MessageCursor.attach q).read q = ([], ⟨q.total_sent_count⟩) ∧
    (MessageCursor.attach q).len q = 0 ∧
    (MessageCursor.attach q).is_empty q = true := by
  have hclamp : (MessageCursor.attach q).clamp q = ⟨q.total_sent_count⟩ := by
    unfold MessageCursor.clamp MessageCursor.attach
    exact congrArg MessageCursor.mk
      (Nat.max_eq_left (q.oldestRetainedId_le_total hWF))
  have hnil : ((⟨q.total_sent_count⟩ : MessageCursor)).unread q = [] := by
    apply List.filter_eq_nil_iff.mpr
    intro m hm
    simp only [decide_eq_true_eq, Nat.not_le]
    exact hWF.2 m hm
  have hnil' : (MessageCursor.attach q).unread q = [] := hnil
  have hr : (MessageCursor.attach q).read_with_id q =
      ([], ⟨q.total_sent_count⟩) := by
    show ((MessageCursor.attach q).clamp q |>.unread q,
      ((MessageCursor.attach q).clamp q).advance
        ((MessageCursor.attach q).clamp q |>.unread q)) = _
    rw [hclamp, hnil]
    rfl
  refine ⟨rfl, ?_, ?_, ?_⟩
  · show (((MessageCursor.attach q).read_with_id q).1.map MessageInstance.payload,
      ((MessageCursor.attach q).read_with_id q).2) = _
    rw [hr]
    rfl
  · show ((MessageCursor.attach q).unread q).length = 0
    rw [hnil']
    rfl
  · show (((MessageCursor.attach q).unread q).length == 0) = true
    rw [hnil']
    rfl

/-- **C7**: `clear` advances `next_unread_id` to `total_sent_count` and
yields nothing, so `clear` followed immediately by `read` yields the empty
sequence, and a subsequent single `send` followed by `read` yields exactly
that one new message and nothing else. -/
theorem clear_then_read_is_empty (c : MessageCursor) (q : Messages α) (p : α)
    (hWF : q.WF) :
    let c' := c.clear q
    c'.next_unread_id = q.total_sent_count ∧
    (c'.read q).1 = [] ∧
    (c'.read q).2 = c' ∧
    (c'.read (q.send p).1).1 = [p] ∧
    (c'.read (q.send p).1).2 = ⟨q.total_sent_count + 1⟩ := by
  intro c'
  have hc' : c' = ⟨q.total_sent_count⟩ := rfl
  have hclamp : c'.clamp q = ⟨q.total_sent_count⟩ := by
    unfold MessageCursor.clamp
    exact congrArg MessageCursor.mk
      (Nat.max_eq_left (q.oldestRetainedId_le_total hWF))
  have hnil : ((⟨q.total_sent_count⟩ : MessageCursor)).unread q = [] := by
    apply List.filter_eq_nil_iff.mpr
    intro m hm
    simp only [decide_eq_true_eq, Nat.not_le]
    exact hWF.2 m hm
  have hr : c'.read_with_id q = ([], ⟨q.total_sent_count⟩) := by
    show (c'.clamp q |>.unread q,
      (c'.clamp q).advance (c'.clamp q |>.unread q)) = _
    rw [hclamp, hnil]
    rfl
  have hq' : (q.send p).1.WF := q.WF_send hWF p
  have holdle : (q.send p).1.oldestRetainedId ≤ q.total_sent_count := by
    unfold Messages.oldestRetainedId
    rw [q.retained_send p]
    cases hqr : q.retained with
    | nil => simp
    | cons a t =>
      simp only [List.cons_append, List.head?_cons]
      exact le_of_lt (hWF.2 a (by rw [hqr]; exact List.mem_cons_self a t))
  have hclamp2 : c'.clamp (q.send p).1 = ⟨q.total_sent_count⟩ := by
    unfold MessageCursor.clamp
    exact congrArg MessageCursor.mk (Nat.max_eq_left holdle)
  have hun2 : ((⟨q.total_sent_count⟩ : MessageCursor)).unread (q.send p).1 =
      [⟨q.total_sent_count, p⟩] := by
    unfold MessageCursor.unread
    rw [q.retained_send p, List.filter_append]
    have h1 : q.retained.filter
        (fun m => decide (q.total_sent_count ≤ m.id)) = [] := by
      apply List.filter_eq_nil_iff.mpr
      intro m hm
      simp only [decide_eq_true_eq, Nat.not_le]
      exact hWF.2 m hm
    rw [h1]
    simp
  have hr2 : c'.read_with_id (q.send p).1 =
      ([⟨q.total_sent_count, p⟩], ⟨q.total_sent_count + 1⟩) := by
    show (c'.clamp (q.send p).1 |>.unread (q.send p).1,
      (c'.clamp (q.send p).1).advance
        (c'.clamp (q.send p).1 |>.unread (q.send p).1)) = _
    rw [hclamp2, hun2]
    rfl
  refine ⟨rfl, ?_, ?_, ?_, ?_⟩
  · show ((c'.read_with_id q).1.map MessageInstance.payload) = []
    rw [hr]
    rfl
  · show (c'.read_with_id q).2 = c'
    rw [hr, hc']
  · show ((c'.read_with_id (q.send p).1).1.map MessageInstance.payload) = [p]
    rw [hr2]
    rfl
  · show (c'.read_with_id (q.send p).1).2 = _
    rw [hr2]

/-! ### Concrete witnesses

`qWitness` is the queue after sending payloads 10 and 20 in tick 1,
rotating, and sending 30 in tick 2: `previous` holds ids 0 and 1, `current`
holds id 2, and `total_sent_count` is 3. -/

def qWitness : Messages Nat :=
  ((Messages.emptyQueue Nat).sendAll [10, 20]).rotate.sendAll [30]

/-- A queue whose reader has fallen behind: ids 0, 1 and 2 were already
dropped by rotation, ids 3 and 4 are still retained. -/
def qBehind : Messages Nat :=
  { previous := [⟨3, 100⟩], current := [⟨4, 200⟩], total_sent_count := 5 }

/-- A queue with messages still resident in `current` at attach time. -/
def qResident : Messages Nat :=
  (Messages.emptyQueue Nat).sendAll [7, 8, 9]

theorem read_contract_witness :
    Messages.WF qWitness ∧
    (let r := MessageCursor.read_with_id ⟨1⟩ qWitness
     (MessageCursor.read ⟨1⟩ qWitness).1 = r.1.map MessageInstance.payload ∧
     (MessageCursor.read ⟨1⟩ qWitness).2 = r.2 ∧
     r.1 = qWitness.previous.filter
         (fun m => (⟨1⟩ : MessageCursor).next_unread_id ≤ m.id) ++
       qWitness.current.filter
         (fun m => (⟨1⟩ : MessageCursor).next_unread_id ≤ m.id) ∧
     r.1.Pairwise (fun a b => a.id < b.id) ∧
     (∀ h : r.1 ≠ [], r.2.next_unread_id = (r.1.getLast h).id + 1 ∧
       ∀ x ∈ r.1, x.id ≤ (r.1.getLast h).id) ∧
     (r.2.read_with_id qWitness).1 = [] ∧
     (r.2.read_with_id qWitness).2 = r.2) :=
  ⟨by decide,
    read_yields_unread_in_order_and_advances ⟨1⟩ qWitness (by decide)⟩

theorem par_read_matches_sequential_witness :
    Messages.WF qWitness ∧
    (let pr := MessageCursor.par_read 0 ⟨0⟩ qWitness
     let sq := MessageCursor.read_with_id ⟨0⟩ qWitness
     pr.1.flatten = sq.1 ∧
     (∀ ch ∈ pr.1, ch.Pairwise (fun x y => x.id < y.id)) ∧
     (sq.1.map MessageInstance.id).Nodup ∧
     pr.2 = sq.2) :=
  ⟨by decide, par_read_matches_sequential 0 ⟨0⟩ qWitness (by decide)⟩

theorem rotation_drop_law_witness :
    (Messages.WF (Messages.emptyQueue Nat) ∧
      (⟨0, 5⟩ : MessageInstance Nat) ∈
        ((Messages.emptyQueue Nat).sendAll [5, 6]).current) ∧
    (let q2 := (((Messages.emptyQueue Nat).sendAll [5, 6]).rotate.sendAll
        [7]).rotate
     (⟨0, 5⟩ : MessageInstance Nat).id ∉
       q2.retained.map MessageInstance.id ∧
     ∀ c : MessageCursor, ∀ x ∈ (c.read_with_id q2).1,
       x.id ≠ (⟨0, 5⟩ : MessageInstance Nat).id) :=
  ⟨⟨by decide, by decide⟩,
    rotation_drop_law (Messages.emptyQueue Nat) [5, 6] [7] (by decide)
      ⟨0, 5⟩ (by decide)⟩

theorem overflow_clamps_forward_witness :
    Messages.WF qBehind ∧
    (MessageCursor.read_with_id ⟨0⟩ qBehind =
        MessageCursor.read_with_id (MessageCursor.clamp ⟨0⟩ qBehind) qBehind ∧
      (MessageCursor.clamp ⟨0⟩ qBehind).next_unread_id =
        max (⟨0⟩ : MessageCursor).next_unread_id qBehind.oldestRetainedId ∧
      qBehind.oldestRetainedId ≤
        (MessageCursor.clamp ⟨0⟩ qBehind).next_unread_id ∧
      (∀ x ∈ (MessageCursor.read_with_id ⟨0⟩ qBehind).1,
        qBehind.oldestRetainedId ≤ x.id) ∧
      (overflowDiagnostic ⟨0⟩ qBehind = true ↔
        (⟨0⟩ : MessageCursor).next_unread_id < qBehind.oldestRetainedId)) :=
  ⟨by decide, overflow_clamps_forward ⟨0⟩ qBehind (by decide)⟩

theorem fresh_reader_reads_nothing_witness :
    Messages.WF qResident ∧
    (MessageCursor.attach qResident =
        ⟨qResident.total_sent_count⟩ ∧
      (MessageCursor.attach qResident).read qResident =
        ([], ⟨qResident.total_sent_count⟩) ∧
      (MessageCursor.attach qResident).len qResident = 0 ∧
      (MessageCursor.attach qResident).is_empty qResident = true) :=
  ⟨by decide, fresh_reader_reads_nothing qResident (by decide)⟩

theorem clear_then_read_is_empty_witness :
    Messages.WF qWitness ∧
    (let c' := MessageCursor.clear ⟨0⟩ qWitness
     c'.next_unread_id = qWitness.total_sent_count ∧
     (c'.read qWitness).1 = [] ∧
     (c'.read qWitness).2 = c' ∧
     (c'.read (qWitness.send 40).1).1 = [40] ∧
     (c'.read (qWitness.send 40).1).2 =
       ⟨qWitness.total_sent_count + 1⟩) :=
  ⟨by decide, clear_then_read_is_empty ⟨0⟩ qWitness 40 (by decide)⟩

end MessageBus
